import Mathlib

/-!
Verification development for the decision-and-memory core of the
My-Neighbor-Alice Moltbook agent.

The definitions below are shallow embeddings of the TypeScript source:

* `regexSolveChallenge` and its helpers embed the fallback challenge
  solver `MoltbookClient.regexSolveChallenge` (src/moltbook/client.ts).
  JavaScript numbers are modelled as rationals (every value reached in
  the theorems below is an exact small integer, where the two agree);
  the JS regexes used by the source are implemented as explicit scans
  over the character list of the input string.
* `findUnanswered`, `collectThread`, `findCommentById` embed the
  comment-tree walkers of `AliceMoltbookAgent`.
* `trackComment`, `saveStore`, `buildContext`, `processConvo`,
  `scanLoop`, `checkForReplies` embed the conversation tracker and the
  reply-checking loop of `AliceMoltbookAgent.checkForReplies`; the
  external collaborators (platform fetch, LLM generation and
  summarization) are modelled as function-valued parameters in
  `AgentEnv`, and the effects of one call (submitted replies, summary
  requests) are returned as explicit lists.
* `scoreCandidate` and `pickBest` model the Candidate Ranker, which is
  not present under src/ (spec section 4.4); they are modelled from the
  spec and marked as such in their doc comments.
-/

/-- Lowercase mapping for ASCII letters; mirrors what
`String.prototype.toLowerCase` does on the ASCII inputs handled by the
solver. -/
def toLowerChar (c : Char) : Char :=
  if 'A' ≤ c ∧ c ≤ 'Z' then Char.ofNat (c.toNat + 32) else c

/-- Test for a lowercase ASCII letter, the class `[a-z]` of the source
regexes. -/
def isAZ (c : Char) : Bool :=
  decide ('a' ≤ c ∧ c ≤ 'z')

/-- Test for an ASCII digit, the class `\d` of the source regexes. -/
def isDigitCh (c : Char) : Bool :=
  decide ('0' ≤ c ∧ c ≤ '9')

/-- Whitespace class `\s` of the source regexes, restricted to the ASCII
whitespace characters that can occur in the challenges. -/
def isWSCh (c : Char) : Bool :=
  decide (c = ' ' ∨ c = '\t' ∨ c = '\n' ∨ c = '\r')

/-- Word-character class `\w` (`[A-Za-z0-9_]`) used by the `\b`
boundaries in the source's `/\bsum\b/` test. -/
def isWordCh (c : Char) : Bool :=
  isAZ c || isDigitCh c || decide ('A' ≤ c ∧ c ≤ 'Z') || decide (c = '_')

/-- Collapse every run of one repeated character to a single instance:
the `replace(/(.)\1+/g, '$1')` step of the compressed normalization. -/
def dedup : List Char → List Char
  | [] => []
  | [c] => [c]
  | a :: b :: rest =>
    if a = b then dedup (b :: rest) else a :: dedup (b :: rest)

/-- Collapse every run of whitespace to a single space: the
`replace(/\s+/g, ' ')` step of the spaced normalization. -/
def collapseWS : List Char → List Char
  | [] => []
  | [c] => if isWSCh c then [' '] else [c]
  | a :: b :: rest =>
    if isWSCh a ∧ isWSCh b then collapseWS (b :: rest)
    else (if isWSCh a then ' ' else a) :: collapseWS (b :: rest)

/-- Remove leading and trailing spaces, the `trim()` step (after
`collapseWS` the only whitespace left is the plain space). -/
def trimSpaces (l : List Char) : List Char :=
  ((l.dropWhile fun c => decide (c = ' ')).reverse.dropWhile fun c => decide (c = ' ')).reverse

/-- State of the scanner for the digit regex `/\d+(?:\.\d+)?/g`:
outside a number, inside the integer part, just after a dot whose
status is still unknown, or inside the fractional part. -/
inductive DigitState where
  | start
  | intp (acc : List Char)
  | dotp (acc : List Char)
  | frac (acc : List Char)

/-- One transition of the digit scanner on the next character. -/
def digitStep (s : DigitState × List (List Char)) (c : Char) :
    DigitState × List (List Char) :=
  match s with
  | (DigitState.start, out) =>
    if isDigitCh c then (DigitState.intp [c], out) else (DigitState.start, out)
  | (DigitState.intp acc, out) =>
    if isDigitCh c then (DigitState.intp (acc ++ [c]), out)
    else if c = '.' then (DigitState.dotp acc, out)
    else (DigitState.start, out ++ [acc])
  | (DigitState.dotp acc, out) =>
    if isDigitCh c then (DigitState.frac (acc ++ ['.', c]), out)
    else (DigitState.start, out ++ [acc])
  | (DigitState.frac acc, out) =>
    if isDigitCh c then (DigitState.frac (acc ++ [c]), out)
    else (DigitState.start, out ++ [acc])

/-- All matches of `/\d+(?:\.\d+)?/g` over a character list, leftmost
and greedy exactly like the JS global regex: maximal digit runs, with a
fractional part attached only when a digit follows the dot. -/
def scanDigits (l : List Char) : List (List Char) :=
  match l.foldl digitStep (DigitState.start, []) with
  | (DigitState.start, out) => out
  | (DigitState.intp acc, out) => out ++ [acc]
  | (DigitState.dotp acc, out) => out ++ [acc]
  | (DigitState.frac acc, out) => out ++ [acc]

/-- Numeric value of a digit run. -/
def digitsVal (l : List Char) : Nat :=
  l.foldl (fun n c => 10 * n + (c.toNat - 48)) 0

/-- Value of one digit-regex match (`Number(...)` on the matched
token), as a rational. -/
def parseDecimalToken (t : List Char) : ℚ :=
  let ip := t.takeWhile fun c => decide (c ≠ '.')
  match t.dropWhile fun c => decide (c ≠ '.') with
  | [] => (digitsVal ip : ℚ)
  | _ :: fr => (digitsVal ip : ℚ) + (digitsVal fr : ℚ) / (((10 : Nat) : ℚ) ^ fr.length)

/-- Substring containment over character lists, the semantics of the JS
`String.prototype.includes` used throughout the solver. -/
def containsSub (w : List Char) : List Char → Bool
  | [] => w.isEmpty
  | c :: rest => w.isPrefixOf (c :: rest) || containsSub w rest

/-- Remove the first (leftmost) occurrence of `w`, the behaviour of the
JS `String.prototype.replace(word, '')` with a plain-string pattern. -/
def removeFirst (w : List Char) : List Char → List Char
  | [] => []
  | c :: rest =>
    if w.isPrefixOf (c :: rest) then (c :: rest).drop w.length
    else c :: removeFirst w rest

/-- One iteration of the source's word-extraction loops: when the word
is contained in the current text, record the match and delete its first
occurrence from the text; otherwise leave the state unchanged. -/
def scanWordsStep (st : List (List Char × ℚ) × List Char) (wv : List Char × ℚ) :
    List (List Char × ℚ) × List Char :=
  if containsSub wv.1 st.2 then (st.1 ++ [wv], removeFirst wv.1 st.2) else st

/-- One pass of the source's word-extraction loops: walk the lookup
table in order, accumulating matches in discovery order together with
the remaining text.  Each table entry is examined exactly once. -/
def scanWords (table : List (List Char × ℚ)) (text : List Char) :
    List (List Char × ℚ) × List Char :=
  table.foldl scanWordsStep ([], text)

/-- The `tens` table of the source (client.ts lines 218-221).  Table
values are kept as naturals and cast to the rational value space in
`toCharTable`. -/
def tensWords : List (String × Nat) :=
  [("twenty", 20), ("thirty", 30), ("forty", 40), ("fifty", 50),
   ("sixty", 60), ("seventy", 70), ("eighty", 80), ("ninety", 90)]

/-- The `ones` table of the source (client.ts lines 222-225), in the
collapsed spelling used after deduplication. -/
def onesWords : List (String × Nat) :=
  [("one", 1), ("two", 2), ("thre", 3), ("four", 4), ("five", 5),
   ("six", 6), ("seven", 7), ("eight", 8), ("nine", 9)]

/-- The `simples` table of the source (client.ts lines 238-246): teens
in collapsed spelling, bare tens, ones, zero and hundred. -/
def simplesWords : List (String × Nat) :=
  [("nineten", 19), ("eighten", 18), ("seventen", 17), ("sixten", 16),
   ("fiften", 15), ("fourten", 14), ("thirten", 13), ("twelve", 12),
   ("eleven", 11)] ++ tensWords ++
  [("ten", 10), ("nine", 9), ("eight", 8), ("seven", 7), ("six", 6),
   ("five", 5), ("four", 4), ("thre", 3), ("two", 2), ("one", 1),
   ("zero", 0), ("hundred", 100)]

/-- View of a word table over character lists and rational values. -/
def toCharTable (t : List (String × Nat)) : List (List Char × ℚ) :=
  t.map fun p => (p.1.data, (p.2 : ℚ))

/-- The compound numbers of the source (client.ts lines 228-233): every
tens word concatenated with every ones word, value added. -/
def compoundsRaw : List (List Char × ℚ) :=
  ((toCharTable tensWords).map fun tw =>
    (toCharTable onesWords).map fun ow => (tw.1 ++ ow.1, tw.2 + ow.2)).flatten

/-- Stable insertion step for sorting by word length descending, the
behaviour of the source's `compounds.sort((a, b) => b[0].length -
a[0].length)` (JS `Array.prototype.sort` is stable). -/
def insertByLenDesc (x : List Char × ℚ) : List (List Char × ℚ) → List (List Char × ℚ)
  | [] => [x]
  | y :: rest =>
    if x.1.length ≤ y.1.length then y :: insertByLenDesc x rest else x :: y :: rest

/-- The compound table sorted by length descending (stable). -/
def sortedCompounds : List (List Char × ℚ) :=
  compoundsRaw.foldl (fun acc x => insertByLenDesc x acc) []

/-- The simples table over character lists. -/
def simplesTable : List (List Char × ℚ) :=
  toCharTable simplesWords

/-- Lowercase the text and strip every non-letter (the
`toLowerCase().replace(/[^a-z]/g, '')` steps). -/
def lowerAlpha (l : List Char) : List Char :=
  (l.map toLowerChar).filter isAZ

/-- The compressed normalization (client.ts line 212): lowercase, strip
all non-letters, collapse repeated letters. -/
def compressText (l : List Char) : List Char :=
  dedup (lowerAlpha l)

/-- The spaced normalization (client.ts line 208): lowercase, replace
every non-letter with a space, collapse whitespace, trim. -/
def spacedText (l : List Char) : List Char :=
  trimSpaces (collapseWS ((l.map toLowerChar).map fun c =>
    if isAZ c || isWSCh c then c else ' '))

/-- Word matches of the fallback solver in discovery order: the
compound pass over the compressed text followed by the simples pass
over what that pass left behind (client.ts lines 249-265). -/
def wordMatches (challenge : String) : List (List Char × ℚ) :=
  let compressed := compressText challenge.data
  let step1 := scanWords sortedCompounds compressed
  let step2 := scanWords simplesTable step1.2
  step1.1 ++ step2.1

/-- The final number list of the fallback solver: digit-regex matches
from the raw text, then all word matches in discovery order. -/
def extractedNumbers (challenge : String) : List ℚ :=
  ((scanDigits challenge.data).map parseDecimalToken) ++
    (wordMatches challenge).map fun m => m.2

/-- The four operator branches of the fallback solver. -/
inductive Oper where
  | sum
  | multiply
  | divide
  | subtract
  deriving DecidableEq

/-- Substring test used by the operator detection (`opText.includes`). -/
def hasKw (t : List Char) (w : String) : Bool :=
  containsSub w.data t

/-- Helper scan for a word-bounded occurrence: `boundary` records
whether the previous character was a non-word character (or the start
of the text). -/
def hasBoundedWordAux (w : List Char) : Bool → List Char → Bool
  | _, [] => false
  | boundary, c :: rest =>
    (boundary && w.isPrefixOf (c :: rest) &&
      (match (c :: rest).drop w.length with
       | [] => true
       | d :: _ => !isWordCh d)) || hasBoundedWordAux w (!isWordCh c) rest

/-- The `\b...\b` test of the source's `/\bsum\b/` check. -/
def hasBoundedWord (w t : List Char) : Bool :=
  hasBoundedWordAux w true t

/-- Operator detection over the combined operator text (client.ts lines
272-290), checked in the source's priority order.  The final branch of
the source assigns `'sum'`, which is already the default, so the two
trailing arms coincide. -/
def detectOperFrom (t : List Char) : Oper :=
  if hasKw t ("product") || hasKw t ("multipli") || hasKw t ("multiply") ||
     hasKw t ("times") || hasKw t ("multiplied") ||
     hasKw t ("torque") || hasKw t ("work") || hasKw t ("power") ||
     hasKw t ("area") || (hasKw t ("force") && hasKw t ("distance")) then
    Oper.multiply
  else if hasKw t ("divide") || hasKw t ("quotient") || hasKw t ("divided") ||
     hasKw t ("split") then
    Oper.divide
  else if hasKw t ("difference") || hasKw t ("subtract") || hasKw t ("minus") ||
     hasKw t ("less") || hasKw t ("loses") || hasKw t ("fewer") ||
     hasKw t ("take away") || hasKw t ("slows") then
    Oper.subtract
  else if hasKw t ("add") || hasKw t ("plus") || hasKw t ("gains") ||
     hasKw t ("more") || hasKw t ("receives") || hasKw t ("gets") ||
     hasKw t ("total") || hasBoundedWord ("sum").data t then
    Oper.sum
  else
    Oper.sum

/-- The `opText` of the source (client.ts line 271): spaced text, a
space, then the compressed text. -/
def opTextOf (challenge : String) : List Char :=
  spacedText challenge.data ++ [' '] ++ compressText challenge.data

/-- Operator detected by the fallback solver for a challenge. -/
def detectOperation (challenge : String) : Oper :=
  detectOperFrom (opTextOf challenge)

/-- The arithmetic of the four branches (client.ts lines 295-310):
addition and multiplication fold the whole list, subtraction and
division use the first two numbers, with `numbers[0] || 0` degrading to
zero when the list is empty. -/
def applyOper : Oper → List ℚ → ℚ
  | Oper.multiply, ns => ns.foldl (fun a b => a * b) 1
  | Oper.divide, ns =>
    match ns with
    | a :: b :: _ => a / b
    | [a] => a
    | [] => 0
  | Oper.subtract, ns =>
    match ns with
    | a :: b :: _ => a - b
    | [a] => a
    | [] => 0
  | Oper.sum, ns => ns.foldl (fun a b => a + b) 0

/-- Two-decimal formatting, the `result.toFixed(2)` step; on the exact
integral values reached in this development it agrees with JS.  The
scaled value `n` is `⌊q * 100 + 1 / 2⌋` computed by floor division on
the numerator and denominator of `q`, which keeps the definition
kernel-computable. -/
def toFixed2 (q : ℚ) : String :=
  let n : Int := Int.fdiv (200 * q.num + (q.den : Int)) (2 * (q.den : Int))
  let m : Nat := n.natAbs
  let ip : Nat := m / 100
  let fr : Nat := m % 100
  (if n < 0 then "-" else "") ++ Nat.repr ip ++ "." ++
    (if fr < 10 then "0" ++ Nat.repr fr else Nat.repr fr)

/-- The fallback challenge solver
`MoltbookClient.regexSolveChallenge` (client.ts lines 200-315). -/
def regexSolveChallenge (challenge : String) : String :=
  toFixed2 (applyOper (detectOperation challenge) (extractedNumbers challenge))

/-- A comment of the platform feed (interface `Comment` of
client.ts): an identifier, the author's display name, the text content
and the ordered child replies.  Fields not used by the core (votes,
timestamps) are omitted. -/
inductive Comment where
  | mk (id author content : String) (replies : List Comment)

/-- Identifier of a comment. -/
def Comment.id : Comment → String
  | Comment.mk i _ _ _ => i

/-- Author display name of a comment. -/
def Comment.author : Comment → String
  | Comment.mk _ a _ _ => a

/-- Text content of a comment. -/
def Comment.content : Comment → String
  | Comment.mk _ _ c _ => c

/-- Ordered child replies of a comment. -/
def Comment.replies : Comment → List Comment
  | Comment.mk _ _ _ rs => rs

/-- One entry of the flattened conversation view (the
`{author, content}` records built by `collectThread`). -/
structure ThreadMessage where
  author : String
  content : String
  deriving DecidableEq

/-- The predicate of `findUnansweredReply` on a (parent, reply) pair:
the parent is authored by the agent, the reply by someone else, and the
reply has not been seen yet. -/
def replyPred (agent : String) (seen : List String) (p : Comment × Comment) : Bool :=
  decide (p.1.author = agent ∧ p.2.author ≠ agent ∧ p.2.id ∉ seen)

mutual

/-- The agent's `findUnansweredReply` (agent source lines 153-175): for
each direct reply of the comment, in order, return the (parent, reply)
pair at once when the predicate holds, and otherwise descend into that
reply before moving to the next sibling. -/
def findUnansweredReply (agent : String) (seen : List String) :
    Comment → Option (Comment × Comment)
  | Comment.mk i a c rs => findUnansweredReplyIn agent seen (Comment.mk i a c rs) rs

/-- The reply loop of `findUnansweredReply` over the direct replies of
`parent`. -/
def findUnansweredReplyIn (agent : String) (seen : List String)
    (parent : Comment) : List Comment → Option (Comment × Comment)
  | [] => none
  | r :: rest =>
    if parent.author = agent ∧ r.author ≠ agent ∧ r.id ∉ seen then
      some (parent, r)
    else
      match findUnansweredReply agent seen r with
      | some p => some p
      | none => findUnansweredReplyIn agent seen parent rest

end

mutual

/-- The (parent, reply) pairs of a comment subtree in the order in
which `findUnansweredReply` examines them: each direct reply first as a
pair with its parent, then the pairs of its own subtree, then the later
siblings. -/
def scanPairs : Comment → List (Comment × Comment)
  | Comment.mk i a c rs => scanPairsIn (Comment.mk i a c rs) rs

/-- The pair enumeration over the direct replies of `parent`. -/
def scanPairsIn (parent : Comment) : List Comment → List (Comment × Comment)
  | [] => []
  | r :: rest => (parent, r) :: (scanPairs r ++ scanPairsIn parent rest)

end

mutual

/-- The agent's `collectThread` (agent source lines 132-148): start
with the root comment, then follow exactly one branch, the first child
whose flattened subthread contains the agent or whose own author is not
the agent. -/
def collectThread (agent : String) : Comment → List ThreadMessage
  | Comment.mk _ a c rs => ⟨a, c⟩ :: collectFollow agent rs

/-- The branch-following loop of `collectThread` over child replies. -/
def collectFollow (agent : String) : List Comment → List ThreadMessage
  | [] => []
  | r :: rest =>
    let sub := collectThread agent r
    if sub.any (fun m => m.author = agent) || decide (r.author ≠ agent) then sub
    else collectFollow agent rest

end

/-- The agent's `findCommentById` (agent source lines 355-362):
depth-first search of a comment forest for the comment with the given
identifier. -/
def findCommentById : List Comment → String → Option Comment
  | [], _ => none
  | Comment.mk ci ca cc crs :: rest, i =>
    if ci = i then some (Comment.mk ci ca cc crs)
    else
      match findCommentById crs i with
      | some found => some found
      | none => findCommentById rest i

/-- A tracked conversation (interface `TrackedConversation` of the
agent source): the post, the agent's root comment in it, the reply ids
already answered, the stored summary (null modelled as `none`) and the
creation timestamp. -/
structure TrackedConversation where
  postId : String
  commentId : String
  lastSeenReplyIds : List String
  summary : Option String
  createdAt : String
  deriving DecidableEq

/-- The persisted store (interface `ConversationStore`); the
`recentPosts` field, which is unrelated to conversation tracking, is
omitted. -/
structure ConversationStore where
  conversations : List TrackedConversation
  deriving DecidableEq

/-- Last `n` elements of a list, the semantics of the JS
`Array.prototype.slice(-n)` used by `saveConversations`. -/
def lastN (n : Nat) (l : List α) : List α :=
  l.drop (l.length - n)

/-- All but the last `n` elements of a list, the semantics of the JS
`slice(0, -n)` used by the summarization policy. -/
def dropLastN (n : Nat) (l : List α) : List α :=
  l.take (l.length - n)

/-- The agent's `saveConversations` (agent source lines 96-100): every
save keeps only the last 50 conversations. -/
def saveStore (st : ConversationStore) : ConversationStore :=
  { st with conversations := lastN 50 st.conversations }

/-- The record pushed by `trackComment`: empty seen set, no summary. -/
def mkTracked (postId commentId createdAt : String) : TrackedConversation :=
  { postId := postId, commentId := commentId, lastSeenReplyIds := [],
    summary := none, createdAt := createdAt }

/-- The agent's `trackComment` (agent source lines 116-126): append a
fresh record and save (which enforces the 50-entry cap). -/
def trackComment (store : ConversationStore) (postId commentId createdAt : String) :
    ConversationStore :=
  saveStore { store with conversations := store.conversations ++ [mkTracked postId commentId createdAt] }

/-- The `SUMMARY_THRESHOLD` constant of `checkForReplies` (agent source
line 299). -/
def summaryThreshold : Nat := 4

/-- Result of the summarization policy: the messages passed to reply
generation, the summary passed alongside them (and stored back on the
conversation), and the list of summarization requests issued (title and
older messages of each call). -/
structure LLMContext where
  threadForLLM : List ThreadMessage
  summaryForLLM : Option String
  summaryCalls : List (String × List ThreadMessage)
  deriving DecidableEq

/-- The summarization policy of `checkForReplies` (agent source lines
299-321): with more than `summaryThreshold` messages, split off the
last 2 as recent; re-summarize the older slice only when there is no
stored summary (the source tests JS falsiness, which also covers an
empty-string summary) or the older slice itself exceeds the threshold;
otherwise reuse the stored summary.  With a short thread, pass the full
thread and the stored summary unchanged. -/
def buildLLMContext (summarize : String → List ThreadMessage → String)
    (title : String) (storedSummary : Option String)
    (fullThread : List ThreadMessage) : LLMContext :=
  if summaryThreshold < fullThread.length then
    let olderMessages := dropLastN 2 fullThread
    let recentMessages := lastN 2 fullThread
    if storedSummary.getD ("") = "" ∨ summaryThreshold < olderMessages.length then
      ⟨recentMessages, some (summarize title olderMessages), [(title, olderMessages)]⟩
    else
      ⟨recentMessages, storedSummary, []⟩
  else
    ⟨fullThread, storedSummary, []⟩

/-- The post data used by the reply path (only the title is read). -/
structure PostInfo where
  title : String
  deriving DecidableEq

/-- Outcome of one `getPost` fetch: the post with its comment forest,
or an error that either is or is not a rate-limit (HTTP 429) error. -/
inductive FetchResult where
  | ok (post : PostInfo) (comments : List Comment)
  | err (rateLimited : Bool)

/-- A reply submitted through the platform collaborator
(`createReply(postId, parentId, content)`). -/
structure Submission where
  postId : String
  parentId : String
  content : String
  deriving DecidableEq

/-- The collaborators consumed by `checkForReplies`, modelled as
deterministic functions: the agent name, the platform fetch, and the
two generation calls (`summarizeThread` and `generateReply`, the latter
taking the thread, the reply author and the summary). -/
structure AgentEnv where
  agentName : String
  fetchPost : String → FetchResult
  summarizeThread : String → List ThreadMessage → String
  generateReply : List ThreadMessage → String → Option String → String

/-- Outcome of processing one stored conversation inside the
`checkForReplies` loop: the fetch threw (rate-limited or not), the
conversation was skipped (root comment missing or no unanswered reply),
or a reply was generated and submitted. -/
inductive ConvoStep where
  | fetchErr (rateLimited : Bool)
  | skip
  | answered (updated : TrackedConversation) (submission : Submission)
      (summaryCalls : List (String × List ThreadMessage))
  deriving DecidableEq

/-- The body of the `checkForReplies` loop for one conversation (agent
source lines 276-341): fetch the post, locate the agent's root comment,
search for an unanswered reply; on a hit, flatten the thread, append
the found reply when its content is not already present, apply the
summarization policy, generate the reply and submit it, and append the
reply id to the seen set. -/
def processConvo (env : AgentEnv) (convo : TrackedConversation) : ConvoStep :=
  match env.fetchPost convo.postId with
  | FetchResult.err rl => ConvoStep.fetchErr rl
  | FetchResult.ok post comments =>
    match findCommentById comments convo.commentId with
    | none => ConvoStep.skip
    | some rootComment =>
      match findUnansweredReply env.agentName convo.lastSeenReplyIds rootComment with
      | none => ConvoStep.skip
      | some pr =>
        let reply := pr.2
        let thread0 := collectThread env.agentName rootComment
        let fullThread :=
          if thread0.any fun m => m.content = reply.content then thread0
          else thread0 ++ [⟨reply.author, reply.content⟩]
        let title := if post.title = "" then ("(untitled)") else post.title
        let ctx := buildLLMContext env.summarizeThread title convo.summary fullThread
        let replyContent := env.generateReply ctx.threadForLLM reply.author ctx.summaryForLLM
        ConvoStep.answered
          { convo with
              summary := ctx.summaryForLLM,
              lastSeenReplyIds := convo.lastSeenReplyIds ++ [reply.id] }
          ⟨convo.postId, reply.id, replyContent⟩
          ctx.summaryCalls

/-- Accumulated state of the `checkForReplies` scan: the conversations
already walked (with their mutations), the reply counter, and the
submissions and summarization requests issued so far. -/
structure ScanState where
  walked : List TrackedConversation
  repliesSent : Nat
  submissions : List Submission
  summaryCalls : List (String × List ThreadMessage)
  deriving DecidableEq

/-- The `for`-loop of `checkForReplies` (agent source lines 276-349):
a skipped conversation and a non-rate-limit error both continue with
the next conversation; a rate-limit error breaks out of the loop; an
answered reply increments the counter, records the submission and
breaks out of the loop.  Conversations not reached keep their stored
state. -/
def scanLoop (env : AgentEnv) : List TrackedConversation → ScanState → ScanState
  | [], s => s
  | c :: rest, s =>
    match processConvo env c with
    | ConvoStep.skip =>
      scanLoop env rest { s with walked := s.walked ++ [c] }
    | ConvoStep.fetchErr false =>
      scanLoop env rest { s with walked := s.walked ++ [c] }
    | ConvoStep.fetchErr true =>
      { s with walked := s.walked ++ (c :: rest) }
    | ConvoStep.answered c2 sub calls =>
      { s with
          walked := s.walked ++ (c2 :: rest),
          repliesSent := s.repliesSent + 1,
          submissions := s.submissions ++ [sub],
          summaryCalls := s.summaryCalls ++ calls }

/-- Result of one `checkForReplies` call: the return value (number of
replies sent), the persisted store, and the lists of submissions and
summarization requests issued during the call. -/
structure CheckResult where
  repliesSent : Nat
  store : ConversationStore
  submissions : List Submission
  summaryCalls : List (String × List ThreadMessage)
  deriving DecidableEq

/-- The agent's `checkForReplies` (agent source lines 269-353): an
empty store returns 0 at once (without saving); otherwise the scan loop
runs over the stored conversations in order and the mutated store is
saved (which re-applies the 50-entry cap). -/
def checkForReplies (env : AgentEnv) (store : ConversationStore) : CheckResult :=
  if store.conversations = [] then ⟨0, store, [], []⟩
  else
    let s := scanLoop env store.conversations ⟨[], 0, [], []⟩
    ⟨s.repliesSent, saveStore ⟨s.walked⟩, s.submissions, s.summaryCalls⟩

/-- Modelled from the spec: the Candidate Ranker (spec section 4.4) is
not present under src/, so its seven signals are modelled as an
abstract record of signal functions (the spec fixes only the weights,
the signal meanings and the selection rule, not the exact emoji range,
greeting blacklist or pronoun list). -/
structure RankSignals where
  invitesResponse : String → ℚ
  lexicalSimplicity : String → ℚ
  visualMarker : String → ℚ
  nonGenericOpening : String → ℚ
  punctuationRestraint : String → ℚ
  personalVoice : String → ℚ
  noSpamSignals : String → ℚ

/-- Modelled from the spec: the candidate score is the weighted sum of
the seven signals with the fixed weights of the spec's rubric table. -/
def scoreCandidate (sig : RankSignals) (t : String) : ℚ :=
  (25 : ℚ) / 100 * sig.invitesResponse t +
  (20 : ℚ) / 100 * sig.lexicalSimplicity t +
  (15 : ℚ) / 100 * sig.visualMarker t +
  (15 : ℚ) / 100 * sig.nonGenericOpening t +
  (10 : ℚ) / 100 * sig.punctuationRestraint t +
  (10 : ℚ) / 100 * sig.personalVoice t +
  (5 : ℚ) / 100 * sig.noSpamSignals t

/-- Modelled from the spec: return the single highest-scoring
candidate, ties broken by first occurrence (an element is replaced only
by a strictly higher-scoring later one). -/
def pickBest (score : α → ℚ) : List α → Option α
  | [] => none
  | c :: rest =>
    match pickBest score rest with
    | none => some c
    | some b => if score c < score b then some b else some c

/-- Observer: whether a conversation step submitted a reply. -/
def stepAnswered : ConvoStep → Bool
  | ConvoStep.answered _ _ _ => true
  | _ => false

/-- Observer: whether a conversation step hit the rate-limit error
branch (the only branch that aborts the scan). -/
def stepRateLimited : ConvoStep → Bool
  | ConvoStep.fetchErr rl => rl
  | _ => false

/-- Observer: whether a conversation step lets the scan continue with
the next conversation (a skip or a non-rate-limit error). -/
def stepContinues : ConvoStep → Bool
  | ConvoStep.skip => true
  | ConvoStep.fetchErr rl => !rl
  | ConvoStep.answered _ _ _ => false

/-- Observer: no conversation in the list currently yields an answered
reply under the given environment. -/
def convosQuiet (env : AgentEnv) (l : List TrackedConversation) : Bool :=
  l.all fun c => !stepAnswered (processConvo env c)

/-- Observer: no conversation in the list hits a rate-limit error under
the given environment. -/
def noRateLimit (env : AgentEnv) (l : List TrackedConversation) : Bool :=
  l.all fun c => !stepRateLimited (processConvo env c)

/-- Observer: the id of the reply returned by a tree search. -/
def replyIdOf (r : Option (Comment × Comment)) : Option String :=
  r.map fun p => p.2.id

/-- One `track` request (post id, comment id, creation timestamp). -/
def mkTrackedOp (o : String × String × String) : TrackedConversation :=
  mkTracked o.1 o.2.1 o.2.2

/-- A sequence of `trackComment` calls starting from a given store. -/
def trackAll (ops : List (String × String × String)) (st : ConversationStore) :
    ConversationStore :=
  ops.foldl (fun s o => trackComment s o.1 o.2.1 o.2.2) st

/-- The challenge of the spec's fallback-solver example. -/
def chalC1 : String := "Th1rrtEEn   pLus  f0urteEN"

/-- A challenge with a multiply keyword and no extractable numbers. -/
def chalTimes : String := "times"

/-- A challenge with an addition keyword and no extractable numbers. -/
def chalAdd : String := "add"

/-- A challenge in which the same number word occurs twice. -/
def chalFive : String := "five plus five"

/-- Concrete comment tree for the tree-walk theorems: under an
agent-authored root, the earlier sibling (already seen) hides an
unanswered reply at depth 3, while the later sibling is itself an
unanswered reply at depth 1. -/
def cexDeepReply : Comment := Comment.mk "deep" "C" "m3" []

/-- The agent-authored comment holding the deep unanswered reply. -/
def cexMidA : Comment := Comment.mk "r1a" "A" "m2" [cexDeepReply]

/-- The earlier sibling (seen, authored by someone else). -/
def cexEarlySibling : Comment := Comment.mk "r1" "B" "m1" [cexMidA]

/-- The later sibling: an unanswered reply at depth 1. -/
def cexLateSibling : Comment := Comment.mk "shallow" "B" "m4" []

/-- The agent-authored root of the concrete tree. -/
def cexRoot : Comment := Comment.mk "root" "A" "m0" [cexEarlySibling, cexLateSibling]

/-- The seen set of the concrete tree scenario. -/
def cexSeen : List String := ["r1"]

/-- Concrete platform tree for the reply-scan scenarios: the agent's
root comment on post p1 with one unanswered reply. -/
def treeW1 : Comment := Comment.mk "c1" "A" "hello" [Comment.mk "r1" "B" "hey" []]

/-- Concrete platform tree on post p2, same shape. -/
def treeW2 : Comment := Comment.mk "c2" "A" "howdy" [Comment.mk "r2" "B" "yo" []]

/-- Concrete environment: posts p1 and p2 fetch the two trees, any
other post errors (non-rate-limit); generation is constant. -/
def envW : AgentEnv where
  agentName := "A"
  fetchPost := fun p =>
    if p = "p1" then FetchResult.ok ⟨"t1"⟩ [treeW1]
    else if p = "p2" then FetchResult.ok ⟨"t2"⟩ [treeW2]
    else FetchResult.err false
  summarizeThread := fun _ _ => "s"
  generateReply := fun _ _ _ => "g"

/-- Concrete environment whose every fetch fails with a non-rate-limit
error. -/
def envSoft : AgentEnv where
  agentName := "A"
  fetchPost := fun _ => FetchResult.err false
  summarizeThread := fun _ _ => "s"
  generateReply := fun _ _ _ => "g"

/-- Concrete environment whose every fetch fails with a rate-limit
error. -/
def envHard : AgentEnv where
  agentName := "A"
  fetchPost := fun _ => FetchResult.err true
  summarizeThread := fun _ _ => "s"
  generateReply := fun _ _ _ => "g"

/-- Tracked conversation for post p1. -/
def convoW1 : TrackedConversation := ⟨"p1", "c1", [], none, "d1"⟩

/-- Tracked conversation for post p2. -/
def convoW2 : TrackedConversation := ⟨"p2", "c2", [], none, "d2"⟩

/-- Store holding only the p1 conversation. -/
def storeOne : ConversationStore := ⟨[convoW1]⟩

/-- Store holding the p1 and p2 conversations, both with pending
unanswered replies under `envW`. -/
def storeTwo : ConversationStore := ⟨[convoW1, convoW2]⟩

/-- The initial accumulator of the reply scan. -/
def scanInit : ScanState := ⟨[], 0, [], []⟩

/-- Concrete summarizer for the summarization-threshold witness. -/
def sumW : String → List ThreadMessage → String := fun _ _ => "S"

/-- Concrete post title for the summarization-threshold witness. -/
def titleW : String := "T"

/-- Concrete four-message thread. -/
def msgsFour : List ThreadMessage :=
  [⟨"A", "m1"⟩, ⟨"B", "m2"⟩, ⟨"A", "m3"⟩, ⟨"B", "m4"⟩]

/-- Concrete five-message thread. -/
def msgsFive : List ThreadMessage :=
  [⟨"A", "m1"⟩, ⟨"B", "m2"⟩, ⟨"A", "m3"⟩, ⟨"B", "m4"⟩, ⟨"A", "m5"⟩]

/-- Sixty identical track requests. -/
def opsC5 : List (String × String × String) :=
  List.replicate 60 ("p", "c", "t")

set_option maxRecDepth 100000

theorem scanWords_sublist_aux (table : List (List Char × ℚ)) :
    ∀ p : List (List Char × ℚ) × List Char,
      List.Sublist ((table.foldl scanWordsStep p).1) (p.1 ++ table) := by
  induction table with
  | nil => intro p; simp
  | cons wv tb ih =>
    intro p
    rw [List.foldl_cons]
    by_cases hc : containsSub wv.1 p.2 = true
    · have h := ih (scanWordsStep p wv)
      rw [scanWordsStep, if_pos hc] at h
      rw [scanWordsStep, if_pos hc]
      simpa [List.append_assoc] using h
    · have h := ih (scanWordsStep p wv)
      rw [scanWordsStep, if_neg hc] at h
      rw [scanWordsStep, if_neg hc]
      exact h.trans (List.Sublist.append_left (List.sublist_cons_self wv tb) p.1)

/-- Claim C1 (counterexample): on the input
`"Th1rrtEEn   pLus  f0urteEN"` the fallback solver does not produce the
number list `[13, 14]` (nor `[1, 13, 14]`), and its output is not
`"27.00"`: the digits `1` and `0` stand in for the letters `i` and `o`,
so after stripping non-letters the compressed text contains `thrten`
and `furten`, which match neither `thirten` nor `fourten`. -/
theorem c1_solver_example_counterexample :
    regexSolveChallenge chalC1 ≠ "27.00" ∧
    extractedNumbers chalC1 ≠ [(13 : ℚ), 14] ∧
    extractedNumbers chalC1 ≠ [(1 : ℚ), 13, 14] := by
  have h1 : extractedNumbers chalC1 = [1, 0, 10] := by decide
  have h2 : detectOperation chalC1 = Oper.sum := by decide
  have h3 : applyOper Oper.sum [1, 0, 10] = ((11 : Nat) : ℚ) := by norm_num [applyOper]
  refine ⟨?_, ?_, ?_⟩
  · rw [regexSolveChallenge, h1, h2, h3]; decide
  · rw [h1]; decide
  · rw [h1]; decide

/-- Claim C1 (amended): on the input `"Th1rrtEEn   pLus  f0urteEN"` the
fallback solver extracts the number list `[1, 0, 10]` (the two literal
digits plus the word `ten` inside the mangled `thirteen`), detects the
operator add, and returns `"11.00"`. -/
theorem c1_solver_example_amended :
    extractedNumbers chalC1 = [(1 : ℚ), 0, 10] ∧
    detectOperation chalC1 = Oper.sum ∧
    regexSolveChallenge chalC1 = "11.00" := by
  have h1 : extractedNumbers chalC1 = [1, 0, 10] := by decide
  have h2 : detectOperation chalC1 = Oper.sum := by decide
  have h3 : applyOper Oper.sum [1, 0, 10] = ((11 : Nat) : ℚ) := by norm_num [applyOper]
  refine ⟨h1, h2, ?_⟩
  rw [regexSolveChallenge, h1, h2, h3]; decide

/-- Claim C7 (counterexample): the challenge `"times"` has an empty
number list and selects the multiply branch, whose fold over the empty
list starts at 1, so the solver returns `"1.00"`, not `"0.00"`. -/
theorem c7_empty_numbers_counterexample :
    extractedNumbers chalTimes = [] ∧
    detectOperation chalTimes = Oper.multiply ∧
    regexSolveChallenge chalTimes = "1.00" ∧
    regexSolveChallenge chalTimes ≠ "0.00" := by
  have h1 : extractedNumbers chalTimes = [] := by decide
  have h2 : detectOperation chalTimes = Oper.multiply := by decide
  have hs : regexSolveChallenge chalTimes = "1.00" := by
    rw [regexSolveChallenge, h1, h2]; decide
  exact ⟨h1, h2, hs, by rw [hs]; decide⟩

/-- Claim C7 (amended): on an empty number list the solver never
throws; the sum, subtract and divide branches degrade to `"0.00"`,
while the multiply branch returns the empty product `"1.00"`.  (An
unrecognized operator is impossible: detection defaults to add.) -/
theorem c7_empty_numbers_amended (challenge : String)
    (h : extractedNumbers challenge = []) :
    (detectOperation challenge = Oper.multiply →
       regexSolveChallenge challenge = "1.00") ∧
    (detectOperation challenge ≠ Oper.multiply →
       regexSolveChallenge challenge = "0.00") := by
  constructor
  · intro hm; rw [regexSolveChallenge, h, hm]; decide
  · intro hm
    rw [regexSolveChallenge, h]
    cases hop : detectOperation challenge with
    | sum => decide
    | multiply => exact absurd hop hm
    | divide => decide
    | subtract => decide

/-- Witness for the amended C7 theorem at the concrete challenges
`"times"` (multiply branch) and `"add"` (addition branch). -/
theorem c7_empty_numbers_amended_witness :
    regexSolveChallenge chalTimes = "1.00" ∧ regexSolveChallenge chalAdd = "0.00" :=
  ⟨(c7_empty_numbers_amended chalTimes (by decide)).1 (by decide),
   (c7_empty_numbers_amended chalAdd (by decide)).2 (by decide)⟩

/-- Claim C10: in the word pass each table entry is examined exactly
once and contributes at most one operand (the match list is a sublist
of the lookup table), so the challenge `"five plus five"` yields the
number list `[5]` and the answer `"5.00"` rather than `"10.00"`. -/
theorem c10_word_once :
    (∀ (table : List (List Char × ℚ)) (text : List Char),
       List.Sublist ((scanWords table text).1) table) ∧
    extractedNumbers chalFive = [(5 : ℚ)] ∧
    regexSolveChallenge chalFive = "5.00" := by
  refine ⟨?_, by decide, ?_⟩
  · intro table text
    have h := scanWords_sublist_aux table ([], text)
    simpa [scanWords] using h
  · have h1 : extractedNumbers chalFive = [(5 : ℚ)] := by decide
    have h2 : detectOperation chalFive = Oper.sum := by decide
    have h3 : applyOper Oper.sum [(5 : ℚ)] = ((5 : Nat) : ℚ) := by norm_num [applyOper]
    rw [regexSolveChallenge, h1, h2, h3]; decide

/-- Claim C2 (counterexample): in the concrete tree, the later sibling
`"shallow"` is an unanswered reply at depth 1 directly under the
agent-authored root (its predicate holds), yet `findUnansweredReply`
returns the reply `"deep"` found at depth 3 inside the earlier
sibling's subtree — the search is depth-first, not shallowest-first. -/
theorem c2_findUnansweredReply_counterexample :
    replyPred ("A") cexSeen (cexRoot, cexLateSibling) = true ∧
    replyIdOf (findUnansweredReply ("A") cexSeen cexRoot) = some ("deep") := by
  constructor
  · simp [replyPred, cexRoot, cexLateSibling, Comment.author, Comment.id, cexSeen]
  · simp [replyIdOf, cexRoot, cexEarlySibling, cexMidA, cexDeepReply, cexLateSibling,
      cexSeen, findUnansweredReply, findUnansweredReplyIn, Comment.author, Comment.id]

mutual

theorem findUnanswered_eq_findPair (agent : String) (seen : List String)
    (c : Comment) :
    findUnansweredReply agent seen c = (scanPairs c).find? (replyPred agent seen) := by
  match c with
  | Comment.mk i a co rs =>
    rw [findUnansweredReply, scanPairs]
    exact findUnansweredIn_eq_findPair agent seen (Comment.mk i a co rs) rs

theorem findUnansweredIn_eq_findPair (agent : String) (seen : List String)
    (parent : Comment) (l : List Comment) :
    findUnansweredReplyIn agent seen parent l =
      (scanPairsIn parent l).find? (replyPred agent seen) := by
  match l with
  | [] => rw [findUnansweredReplyIn, scanPairsIn]; rfl
  | r :: rest =>
    rw [findUnansweredReplyIn, scanPairsIn]
    by_cases h : parent.author = agent ∧ r.author ≠ agent ∧ r.id ∉ seen
    · rw [if_pos h, List.find?_cons_of_pos]
      simp [replyPred, h]
    · rw [if_neg h, List.find?_cons_of_neg, List.find?_append,
        ← findUnanswered_eq_findPair agent seen r,
        ← findUnansweredIn_eq_findPair agent seen parent rest]
      · cases hf : findUnansweredReply agent seen r <;> simp [Option.or]
      · simp [replyPred, h]

end

/-- Claim C2 (amended): `findUnansweredReply` performs a pre-order
depth-first scan: it returns the first (parent, reply) pair satisfying
the predicate in the pre-order pair enumeration `scanPairs`, in which
every pair inside an earlier sibling's subtree precedes every pair
under a later sibling, however deep; being a pure function of the tree
and `seenIds`, its result is the same on every invocation.  In
particular a deeper unanswered reply inside an earlier sibling's
subtree is preferred over an unanswered reply at depth 1 under a later
sibling, not the other way around. -/
theorem c2_findUnansweredReply_preorder (agent : String) (seen : List String)
    (c : Comment) :
    findUnansweredReply agent seen c = (scanPairs c).find? (replyPred agent seen) :=
  findUnanswered_eq_findPair agent seen c

theorem pickBest_cons (f : α → ℚ) (c : α) (rest : List α) :
    pickBest f (c :: rest) =
      match pickBest f rest with
      | none => some c
      | some b => if f c < f b then some b else some c := rfl

theorem pickBest_spec (f : α → ℚ) (c : α) (rest : List α) :
    ∃ b l₁ l₂, pickBest f (c :: rest) = some b ∧ c :: rest = l₁ ++ b :: l₂ ∧
      (∀ x ∈ c :: rest, f x ≤ f b) ∧ (∀ x ∈ l₁, f x < f b) := by
  induction rest generalizing c with
  | nil =>
    refine ⟨c, [], [], rfl, rfl, ?_, by simp⟩
    intro x hx
    rw [List.mem_singleton.mp hx]
  | cons r rs ih =>
    obtain ⟨b, l₁, l₂, hpb, hsplit, hmax, hstrict⟩ := ih r
    by_cases hcb : f c < f b
    · refine ⟨b, c :: l₁, l₂, ?_, ?_, ?_, ?_⟩
      · rw [pickBest_cons, hpb]; simp [hcb]
      · rw [List.cons_append, ← hsplit]
      · intro x hx
        rcases List.mem_cons.mp hx with h | h
        · rw [h]; exact le_of_lt hcb
        · exact hmax x h
      · intro x hx
        rcases List.mem_cons.mp hx with h | h
        · rw [h]; exact hcb
        · exact hstrict x h
    · refine ⟨c, [], r :: rs, ?_, rfl, ?_, by simp⟩
      · rw [pickBest_cons, hpb]; simp [hcb]
      · intro x hx
        rcases List.mem_cons.mp hx with h | h
        · rw [h]
        · exact (hmax x h).trans (not_lt.mp hcb)

/-- Claim C3 (modelled from the spec, the Candidate Ranker is not under
src/): the seven weights sum to 1, and for every non-empty candidate
list the ranker returns a candidate of maximal weighted score whose
predecessors in the list all score strictly lower — the single
highest-scoring candidate with ties broken by first occurrence. -/
theorem c3_candidate_ranker :
    ((25 : ℚ) / 100 + 20 / 100 + 15 / 100 + 15 / 100 + 10 / 100 + 10 / 100 +
        5 / 100 = 1) ∧
    ∀ (sig : RankSignals) (c : String) (rest : List String),
      ∃ b l₁ l₂,
        pickBest (scoreCandidate sig) (c :: rest) = some b ∧
        c :: rest = l₁ ++ b :: l₂ ∧
        (∀ x ∈ c :: rest, scoreCandidate sig x ≤ scoreCandidate sig b) ∧
        (∀ x ∈ l₁, scoreCandidate sig x < scoreCandidate sig b) := by
  refine ⟨by norm_num, ?_⟩
  intro sig c rest
  exact pickBest_spec (scoreCandidate sig) c rest

theorem scanLoop_bound (env : AgentEnv) :
    ∀ (l : List TrackedConversation) (s : ScanState),
      (scanLoop env l s).repliesSent ≤ s.repliesSent + 1 ∧
      (scanLoop env l s).submissions.length ≤ s.submissions.length + 1 := by
  intro l
  induction l with
  | nil => intro s; rw [scanLoop]; exact ⟨Nat.le_succ _, Nat.le_succ _⟩
  | cons c rest ih =>
    intro s
    rw [scanLoop]
    cases hc : processConvo env c with
    | skip => exact ih _
    | fetchErr rl =>
      cases rl
      · exact ih _
      · exact ⟨Nat.le_succ _, Nat.le_succ _⟩
    | answered c2 sub calls =>
      refine ⟨Nat.le_refl _, ?_⟩
      simp

/-- Claim C4: one `checkForReplies` call submits at most one reply (the
return value and the submission list are both bounded by one), and as
soon as one conversation is answered the scan stops: the remaining
conversations are appended to the walked list unchanged, left for a
later heartbeat. -/
theorem c4_at_most_one_reply (env : AgentEnv) (store : ConversationStore) :
    (checkForReplies env store).repliesSent ≤ 1 ∧
    (checkForReplies env store).submissions.length ≤ 1 ∧
    ∀ (c : TrackedConversation) (rest : List TrackedConversation) (s : ScanState)
      (c2 : TrackedConversation) (sub : Submission)
      (calls : List (String × List ThreadMessage)),
      processConvo env c = ConvoStep.answered c2 sub calls →
      scanLoop env (c :: rest) s =
        { s with
            walked := s.walked ++ (c2 :: rest),
            repliesSent := s.repliesSent + 1,
            submissions := s.submissions ++ [sub],
            summaryCalls := s.summaryCalls ++ calls } := by
  refine ⟨?_, ?_, ?_⟩
  · rw [checkForReplies]
    split
    · exact Nat.zero_le 1
    · exact (scanLoop_bound env _ _).1
  · rw [checkForReplies]
    split
    · exact Nat.zero_le 1
    · exact (scanLoop_bound env _ _).2
  · intro c rest s c2 sub calls h
    rw [scanLoop, h]

/-- Witness for C4 at the concrete two-conversation store (both with
pending replies) and at a concrete answered first conversation. -/
theorem c4_at_most_one_reply_witness :
    (checkForReplies envW storeTwo).repliesSent ≤ 1 ∧
    (checkForReplies envW storeTwo).submissions.length ≤ 1 ∧
    scanLoop envW [convoW1] scanInit =
      { scanInit with
          walked :=
            scanInit.walked ++ ([⟨"p1", "c1", ["r1"], none, "d1"⟩] : List TrackedConversation),
          repliesSent := scanInit.repliesSent + 1,
          submissions := scanInit.submissions ++ [⟨"p1", "r1", "g"⟩],
          summaryCalls := scanInit.summaryCalls ++ [] } := by
  have h := c4_at_most_one_reply envW storeTwo
  refine ⟨h.1, h.2.1, ?_⟩
  refine h.2.2 convoW1 [] scanInit ⟨"p1", "c1", ["r1"], none, "d1"⟩ ⟨"p1", "r1", "g"⟩ [] ?_
  simp [processConvo, envW, convoW1, treeW1, findCommentById, findUnansweredReply,
    findUnansweredReplyIn, collectThread, collectFollow, buildLLMContext,
    summaryThreshold, dropLastN, lastN, Comment.author, Comment.id, Comment.content,
    Comment.replies]

/-- Claim C9: inside the `checkForReplies` scan, a conversation whose
processing hits a non-rate-limit error is skipped (stored unchanged)
and the scan continues with the remaining conversations, while a
rate-limit error ends the scan at once, the current and all remaining
conversations kept unchanged and no further conversation processed. -/
theorem c9_error_policy (env : AgentEnv) (c : TrackedConversation)
    (rest : List TrackedConversation) (s : ScanState) :
    (processConvo env c = ConvoStep.fetchErr false →
      scanLoop env (c :: rest) s =
        scanLoop env rest { s with walked := s.walked ++ [c] }) ∧
    (processConvo env c = ConvoStep.fetchErr true →
      scanLoop env (c :: rest) s = { s with walked := s.walked ++ (c :: rest) }) := by
  constructor
  · intro h; rw [scanLoop, h]
  · intro h; rw [scanLoop, h]

/-- Witness for C9 at a concrete conversation under the always-failing
environments (non-rate-limit and rate-limit). -/
theorem c9_error_policy_witness :
    scanLoop envSoft [convoW1] scanInit =
      scanLoop envSoft [] { scanInit with walked := scanInit.walked ++ [convoW1] } ∧
    scanLoop envHard [convoW1] scanInit =
      { scanInit with walked := scanInit.walked ++ (convoW1 :: []) } :=
  ⟨(c9_error_policy envSoft convoW1 [] scanInit).1 rfl,
   (c9_error_policy envHard convoW1 [] scanInit).2 rfl⟩

theorem scanLoop_quiet (env : AgentEnv) :
    ∀ (l : List TrackedConversation) (s : ScanState),
      (∀ c ∈ l, stepContinues (processConvo env c) = true) →
      scanLoop env l s = { s with walked := s.walked ++ l } := by
  intro l
  induction l with
  | nil => intro s h; rw [scanLoop]; simp
  | cons c rest ih =>
    intro s h
    rw [scanLoop]
    have hc := h c (List.mem_cons_self c rest)
    cases hp : processConvo env c with
    | skip =>
      rw [ih _ (fun d hd => h d (List.mem_cons_of_mem c hd))]
      simp
    | fetchErr rl =>
      rw [hp] at hc
      cases rl
      · rw [ih _ (fun d hd => h d (List.mem_cons_of_mem c hd))]
        simp
      · simp [stepContinues] at hc
    | answered c2 sub calls =>
      rw [hp] at hc
      simp [stepContinues] at hc

theorem scanLoop_progress (env : AgentEnv) :
    ∀ (l : List TrackedConversation) (s : ScanState),
      (∀ c ∈ l, stepRateLimited (processConvo env c) = false) →
      (∃ c ∈ l, stepAnswered (processConvo env c) = true) →
      (scanLoop env l s).repliesSent = s.repliesSent + 1 := by
  intro l
  induction l with
  | nil => intro s h hex; simp at hex
  | cons c rest ih =>
    intro s h hex
    rw [scanLoop]
    cases hp : processConvo env c with
    | skip =>
      have hex2 : ∃ d ∈ rest, stepAnswered (processConvo env d) = true := by
        rcases hex with ⟨d, hd, hda⟩
        rcases List.mem_cons.mp hd with he | hd2
        · rw [he, hp] at hda; simp [stepAnswered] at hda
        · exact ⟨d, hd2, hda⟩
      rw [ih _ (fun d hd => h d (List.mem_cons_of_mem c hd)) hex2]
    | fetchErr rl =>
      have hrl := h c (List.mem_cons_self c rest)
      rw [hp] at hrl
      simp [stepRateLimited] at hrl
      subst hrl
      have hex2 : ∃ d ∈ rest, stepAnswered (processConvo env d) = true := by
        rcases hex with ⟨d, hd, hda⟩
        rcases List.mem_cons.mp hd with he | hd2
        · rw [he, hp] at hda; simp [stepAnswered] at hda
        · exact ⟨d, hd2, hda⟩
      rw [ih _ (fun d hd => h d (List.mem_cons_of_mem c hd)) hex2]
    | answered c2 sub calls => rfl

theorem checkForReplies_zero_iff (env : AgentEnv) (st : ConversationStore)
    (h : noRateLimit env st.conversations = true) :
    ((checkForReplies env st).repliesSent = 0 ↔
      convosQuiet env st.conversations = true) := by
  have hrl : ∀ c ∈ st.conversations, stepRateLimited (processConvo env c) = false := by
    intro c hc
    have h2 := (List.all_eq_true.mp h) c hc
    simpa using h2
  rw [checkForReplies]
  split
  · next hempty => simp [convosQuiet, hempty]
  · next hne =>
    show (scanLoop env st.conversations ⟨[], 0, [], []⟩).repliesSent = 0 ↔ _
    constructor
    · intro h0
      by_contra hq
      have hqf : convosQuiet env st.conversations = false := Bool.eq_false_iff.mpr hq
      have hex : ∃ c ∈ st.conversations, stepAnswered (processConvo env c) = true := by
        have h3 := List.all_eq_false.mp hqf
        simpa using h3
      have hp := scanLoop_progress env st.conversations ⟨[], 0, [], []⟩ hrl hex
      rw [hp] at h0
      simp at h0
    · intro hq
      have hcont : ∀ c ∈ st.conversations, stepContinues (processConvo env c) = true := by
        intro c hc
        have h1 := (List.all_eq_true.mp hq) c hc
        have h2 := hrl c hc
        cases hp : processConvo env c with
        | skip => rfl
        | fetchErr rl =>
          rw [hp] at h2
          simp [stepRateLimited] at h2
          subst h2
          rfl
        | answered c2 sub calls =>
          rw [hp] at h1
          simp [stepAnswered] at h1
      rw [scanLoop_quiet env st.conversations ⟨[], 0, [], []⟩ hcont]

/-- Claim C8 (counterexample): with two tracked conversations that each
hold an unanswered reply and an unchanged platform, the first
`checkForReplies` call answers exactly one reply (the design's
one-per-heartbeat budget) and the immediately following call answers
the second conversation's pending reply — 1, not 0. -/
theorem c8_idempotence_counterexample :
    (checkForReplies envW storeTwo).repliesSent = 1 ∧
    (checkForReplies envW (checkForReplies envW storeTwo).store).repliesSent = 1 ∧
    (checkForReplies envW (checkForReplies envW storeTwo).store).repliesSent ≠ 0 := by
  have h1 : (checkForReplies envW storeTwo).repliesSent = 1 := by
    simp [checkForReplies, scanLoop, processConvo, envW, storeTwo, convoW1, convoW2,
      treeW1, treeW2, findCommentById, findUnansweredReply, findUnansweredReplyIn,
      collectThread, collectFollow, buildLLMContext, saveStore, lastN, dropLastN,
      summaryThreshold, Comment.author, Comment.id, Comment.content, Comment.replies]
  have h2 : (checkForReplies envW (checkForReplies envW storeTwo).store).repliesSent = 1 := by
    simp [checkForReplies, scanLoop, processConvo, envW, storeTwo, convoW1, convoW2,
      treeW1, treeW2, findCommentById, findUnansweredReply, findUnansweredReplyIn,
      collectThread, collectFollow, buildLLMContext, saveStore, lastN, dropLastN,
      summaryThreshold, Comment.author, Comment.id, Comment.content, Comment.replies]
  exact ⟨h1, h2, by rw [h2]; decide⟩

/-- Claim C8 (amended): after a `checkForReplies` call, provided no
conversation of the persisted store hits a rate-limit error, the
immediately following call answers 0 replies exactly when no
conversation of that store still yields an unanswered reply; each call
answers at most one pending conversation, so with several pending
conversations the second call answers the next one instead of 0, and
the replies answered by the first call are never re-answered (their ids
are persisted in `lastSeenReplyIds`). -/
theorem c8_idempotence_amended (env : AgentEnv) (store : ConversationStore)
    (h : noRateLimit env (checkForReplies env store).store.conversations = true) :
    ((checkForReplies env (checkForReplies env store).store).repliesSent = 0 ↔
      convosQuiet env (checkForReplies env store).store.conversations = true) :=
  checkForReplies_zero_iff env (checkForReplies env store).store h

/-- Witness for the amended C8 theorem at the single-conversation store
whose only pending reply the first call answers, so the second call
answers 0. -/
theorem c8_idempotence_amended_witness :
    ((checkForReplies envW (checkForReplies envW storeOne).store).repliesSent = 0 ↔
      convosQuiet envW (checkForReplies envW storeOne).store.conversations = true) := by
  refine c8_idempotence_amended envW storeOne ?_
  simp [noRateLimit, stepRateLimited, checkForReplies, scanLoop, processConvo,
    saveStore, lastN, envW, storeOne, convoW1, treeW1, findCommentById,
    findUnansweredReply, findUnansweredReplyIn, collectThread, collectFollow,
    buildLLMContext, summaryThreshold, dropLastN,
    Comment.author, Comment.id, Comment.content, Comment.replies]

theorem lastN_of_le {l : List α} {n : Nat} (h : l.length ≤ n) : lastN n l = l := by
  simp [lastN, Nat.sub_eq_zero_of_le h]

theorem length_lastN (n : Nat) (l : List α) : (lastN n l).length = min n l.length := by
  simp [lastN]; omega

theorem lastN_lastN_append (n : Nat) (a b : List α) :
    lastN n (lastN n a ++ b) = lastN n (a ++ b) := by
  rcases le_or_lt a.length n with h | h
  · rw [lastN_of_le h]
  · simp only [lastN, List.length_append, List.length_drop]
    have hlen : a.length - (a.length - n) = n := by omega
    rw [hlen]
    rcases le_or_lt b.length n with hb | hb
    · have h1 : n + b.length - n ≤ (List.drop (a.length - n) a).length := by
        simp [List.length_drop]; omega
      have h2 : a.length + b.length - n ≤ a.length := by omega
      rw [List.drop_append_of_le_length h1, List.drop_append_of_le_length h2,
        List.drop_drop]
      have h3 : a.length - n + (n + b.length - n) = a.length + b.length - n := by omega
      rw [h3]
    · have h1 : n + b.length - n = (List.drop (a.length - n) a).length + (b.length - n) := by
        simp [List.length_drop]; omega
      have h2 : a.length + b.length - n = a.length + (b.length - n) := by omega
      rw [h1, List.drop_append, h2, List.drop_append]

theorem trackAll_conversations :
    ∀ (ops : List (String × String × String)) (st : ConversationStore),
      st.conversations.length ≤ 50 →
      (trackAll ops st).conversations =
        lastN 50 (st.conversations ++ ops.map mkTrackedOp) := by
  intro ops
  induction ops with
  | nil => intro st h; simp [trackAll, lastN_of_le h]
  | cons o rest ih =>
    intro st h
    have hst : (trackComment st o.1 o.2.1 o.2.2).conversations.length ≤ 50 := by
      simp [trackComment, saveStore, length_lastN]
    have e := ih (trackComment st o.1 o.2.1 o.2.2) hst
    simp only [trackAll, List.foldl_cons] at e ⊢
    rw [e]
    simp only [trackComment, saveStore, mkTrackedOp]
    rw [lastN_lastN_append]
    simp [List.append_assoc, mkTrackedOp]

/-- Claim C5: tracking never leaves more than 50 conversations and
evicts the oldest first: starting from the empty store, any sequence of
60 track operations leaves exactly 50 conversations — the 50 most
recently tracked, in insertion order (the first 10 are dropped) — and
every save re-enforces the 50-entry cap. -/
theorem c5_store_capacity (ops : List (String × String × String))
    (h : ops.length = 60) :
    (trackAll ops ⟨[]⟩).conversations = (ops.map mkTrackedOp).drop 10 ∧
    (trackAll ops ⟨[]⟩).conversations.length = 50 ∧
    ∀ st : ConversationStore, (saveStore st).conversations.length ≤ 50 := by
  have e := trackAll_conversations ops ⟨[]⟩ (by simp)
  simp only [List.nil_append] at e
  have hm : (ops.map mkTrackedOp).length = 60 := by rw [List.length_map, h]
  refine ⟨?_, ?_, ?_⟩
  · rw [e, lastN, hm]
  · rw [e, length_lastN, hm]; omega
  · intro st
    simp [saveStore, length_lastN]

/-- Witness for C5 at the concrete sequence of sixty track requests. -/
theorem c5_store_capacity_witness :
    (trackAll opsC5 ⟨[]⟩).conversations = (opsC5.map mkTrackedOp).drop 10 ∧
    (trackAll opsC5 ⟨[]⟩).conversations.length = 50 ∧
    (saveStore ⟨[]⟩).conversations.length ≤ 50 := by
  have h := c5_store_capacity opsC5 (by simp [opsC5])
  exact ⟨h.1, h.2.1, h.2.2 ⟨[]⟩⟩

/-- Claim C6: for a conversation with no stored summary, a flattened
thread of exactly 4 messages is passed to generation whole, with no
summarization request; a thread of exactly 5 messages issues exactly
one summarization request covering precisely the first 3 messages,
and exactly the last 2 messages are passed verbatim alongside the
resulting summary. -/
theorem c6_summarization_threshold
    (summarize : String → List ThreadMessage → String) (title : String)
    (thread : List ThreadMessage) :
    (thread.length = 4 →
      buildLLMContext summarize title none thread = ⟨thread, none, []⟩) ∧
    (thread.length = 5 →
      buildLLMContext summarize title none thread =
        ⟨thread.drop 3, some (summarize title (thread.take 3)),
          [(title, thread.take 3)]⟩) := by
  constructor
  · intro h4
    simp [buildLLMContext, summaryThreshold, h4]
  · intro h5
    simp [buildLLMContext, summaryThreshold, h5, dropLastN, lastN]

/-- Witness for C6 at concrete four- and five-message threads. -/
theorem c6_summarization_threshold_witness :
    buildLLMContext sumW titleW none msgsFour = ⟨msgsFour, none, []⟩ ∧
    buildLLMContext sumW titleW none msgsFive =
      ⟨msgsFive.drop 3, some (sumW titleW (msgsFive.take 3)),
        [(titleW, msgsFive.take 3)]⟩ :=
  ⟨(c6_summarization_threshold sumW titleW msgsFour).1 (by decide),
   (c6_summarization_threshold sumW titleW msgsFive).2 (by decide)⟩
